import Mathlib

/-!
Shallow embedding of the legal-ai repository (src/legal_ai) and proofs of the
frozen claims about it.

The embedding translates the Python sources:
  * `GovInfoParser.chunk_document`         (src/legal_ai/parsers.py, lines 175-203)
  * `LegalRAG._classify_legal_content`     (src/legal_ai/rag.py, lines 135-146)
  * `LegalRAG._extract_legal_entities`     (src/legal_ai/rag.py, lines 148-164)
  * `LegalRAG._enhance_legal_documents`    (src/legal_ai/rag.py, lines 120-133)
  * `LegalAI.build_index / query / compare_documents / load_document`
                                           (src/legal_ai/core.py, lines 66-117)

Python-specific behaviour (negative-index slicing, `str.strip`, substring
tests, dict assignment) is modelled explicitly.  The `while` loop of
`chunk_document` is modelled with explicit fuel: a `none` result means the
loop has not returned within the given number of iterations, so a proof of
`∀ fuel, ... = none` establishes non-termination of the loop.  A thrown
`IndexError` (possible for `text[i]` with `i < -len(text)`) is modelled by
the `Except.error` case.  External collaborators (network fetch, HTML
normalisation, embedding, generation) are parameters of the model.
-/

/-- Python index clamping for a slice endpoint `i` on a sequence of length
`len`: negative indices count from the end, results are clamped to
`[0, len]`.  Mirrors CPython `slice.indices`. -/
def pyBound (len : Nat) (i : Int) : Nat :=
  if i < 0 then ((len : Int) + i).toNat else min i.toNat len

/-- Python slice `l[a:b]` (step 1) with Python's negative-index semantics. -/
def pySlice (l : List Char) (a b : Int) : List Char :=
  (l.take (pyBound l.length b)).drop (pyBound l.length a)

/-- Python indexing `l[i]`: negative `i` counts from the end; `none` models
the `IndexError` raised when the adjusted index is out of range. -/
def pyIndex (l : List Char) (i : Int) : Option Char :=
  if 0 ≤ i then l.get? i.toNat
  else if 0 ≤ (l.length : Int) + i then l.get? ((l.length : Int) + i).toNat
  else none

/-- Python `str.strip()`: remove leading and trailing whitespace. -/
def pyStrip (l : List Char) : List Char :=
  ((l.dropWhile Char.isWhitespace).reverse.dropWhile Char.isWhitespace).reverse

/-- Python `str.lower()` (ASCII case folding, as used by the sources). -/
def pyLower (s : String) : String := (s.data.map Char.toLower).asString

/-- Python `sub in s` substring test: some suffix of `s` starts with `sub`. -/
def pyIn (sub s : String) : Bool :=
  (List.range (s.data.length + 1)).any fun i => sub.data.isPrefixOf (s.data.drop i)

theorem pyStrip_length_le (l : List Char) : (pyStrip l).length ≤ l.length := by
  unfold pyStrip
  simp only [List.length_reverse]
  exact le_trans ((List.dropWhile_sublist _).length_le)
    (by simpa using (List.dropWhile_sublist (l := l) Char.isWhitespace).length_le)

theorem pySlice_length (l : List Char) (a b : Int) :
    (pySlice l a b).length = min (pyBound l.length b) l.length - pyBound l.length a := by
  unfold pySlice
  simp [List.length_drop, List.length_take]

theorem pySlice_length_le (l : List Char) (a b cs : Int)
    (hab : a + 1 ≤ b) (hb : b ≤ a + cs + 1) (hcs : 1 ≤ cs) :
    ((pySlice l a b).length : Int) ≤ cs + 1 := by
  rw [pySlice_length]
  unfold pyBound
  split_ifs <;> omega

/-!  ## Chunker: `GovInfoParser.chunk_document` (parsers.py 175-203)

```python
while start < len(text):
    end = start + chunk_size
    if end < len(text):
        for i in range(end, max(start + chunk_size - 200, start), -1):
            if text[i] in '.!?':
                end = i + 1
                break
    chunk = text[start:end].strip()
    if chunk:
        chunks.append(chunk)
    start = end - chunk_overlap
    if start >= len(text):
        break
return chunks
```
-/

/-- The inner `for i in range(i0, i0 - n, -1)` scan of `chunk_document`:
look for the first (i.e. highest) position holding `.`, `!` or `?`,
scanning downward from `i0` for `n` indices.  `Except.error` models the
`IndexError` that `text[i]` raises when `i < -len(text)`. -/
def scanBack (l : List Char) : Nat → Int → Except Unit (Option Int)
  | 0, _ => .ok none
  | n + 1, i =>
    match pyIndex l i with
    | none => .error ()
    | some c => if c = '.' ∨ c = '!' ∨ c = '?' then .ok (some i) else scanBack l n (i - 1)

/-- Computation of the cut position `end` for the current `start` in
`chunk_document`: tentative `start + chunk_size`, cut back to just after the
last sentence terminator found by the scan over
`range(end, max(start + chunk_size - 200, start), -1)`. -/
def sentenceEnd (cs : Int) (l : List Char) (start : Int) : Except Unit Int :=
  if start + cs < (l.length : Int) then
    match scanBack l (start + cs - max (start + cs - 200) start).toNat (start + cs) with
    | .error e => .error e
    | .ok (some i) => .ok (i + 1)
    | .ok none => .ok (start + cs)
  else .ok (start + cs)

/-- One iteration of the `while` loop of `chunk_document`: returns the
(possibly empty, already stripped) chunk and the next `start`. -/
def chunkStep (cs ov : Int) (l : List Char) (start : Int) :
    Except Unit (List Char × Int) :=
  match sentenceEnd cs l start with
  | .error e => .error e
  | .ok e => .ok (pyStrip (pySlice l start e), e - ov)

/-- The `while` loop of `chunk_document`, with fuel.  `none` means the loop
has not returned within `fuel` iterations; `some (.error ())` models a raised
`IndexError`; `some (.ok chunks)` is a normal return. -/
def chunkLoop (cs ov : Int) (l : List Char) :
    Nat → Int → List (List Char) → Option (Except Unit (List (List Char)))
  | 0, _, _ => none
  | n + 1, start, acc =>
    if start < (l.length : Int) then
      match chunkStep cs ov l start with
      | .error _ => some (.error ())
      | .ok (c, start2) =>
        if (l.length : Int) ≤ start2 then
          some (.ok (if c.isEmpty then acc else acc ++ [c]))
        else
          chunkLoop cs ov l n start2 (if c.isEmpty then acc else acc ++ [c])
    else some (.ok acc)

/-- `GovInfoParser.chunk_document` with explicit `chunk_size` and
`chunk_overlap` (read from the config dict in the source) and fuel. -/
def chunk_document (cs ov : Int) (text : String) (fuel : Nat) :
    Option (Except Unit (List String)) :=
  (chunkLoop cs ov text.data fuel 0 []).map (Except.map (List.map List.asString))

theorem scanBack_some_bounds (l : List Char) :
    ∀ (n : Nat) (i j : Int), scanBack l n i = .ok (some j) → i - n < j ∧ j ≤ i := by
  intro n
  induction n with
  | zero => intro i j h; simp [scanBack] at h
  | succ n ih =>
    intro i j h
    unfold scanBack at h
    split at h
    · exact absurd h (by simp)
    · split at h
      · have hj : j = i := by cases h; rfl
        omega
      · have := ih (i - 1) j h
        omega

theorem sentenceEnd_bounds (cs : Int) (l : List Char) (start e : Int)
    (hcs : 1 ≤ cs) (h : sentenceEnd cs l start = .ok e) :
    start + 1 ≤ e ∧ e ≤ start + cs + 1 := by
  unfold sentenceEnd at h
  split_ifs at h with hlen
  · split at h
    · exact absurd h (by simp)
    · next i hs =>
      have he : e = i + 1 := by cases h; rfl
      have hb := scanBack_some_bounds l _ (start + cs) i hs
      omega
    · have he : e = start + cs := by cases h; rfl
      omega
  · have he : e = start + cs := by cases h; rfl
    omega

theorem chunkStep_chunk_bound (cs ov : Int) (l : List Char) (start : Int)
    (c : List Char) (s2 : Int) (hcs : 1 ≤ cs)
    (h : chunkStep cs ov l start = .ok (c, s2)) :
    (c.length : Int) ≤ cs + 1 := by
  unfold chunkStep at h
  split at h
  · exact absurd h (by simp)
  · next e hs =>
    have hc : c = pyStrip (pySlice l start e) := by cases h; rfl
    have hb := sentenceEnd_bounds cs l start e hcs hs
    have h1 : ((pySlice l start e).length : Int) ≤ cs + 1 :=
      pySlice_length_le l start e cs hb.1 hb.2 hcs
    have h2 := pyStrip_length_le (pySlice l start e)
    rw [hc]
    omega

theorem chunkLoop_ok_bound (cs ov : Int) (l : List Char) (hcs : 1 ≤ cs) :
    ∀ (n : Nat) (start : Int) (acc res : List (List Char)),
      (∀ c ∈ acc, (c.length : Int) ≤ cs + 1) →
      chunkLoop cs ov l n start acc = some (.ok res) →
      ∀ c ∈ res, (c.length : Int) ≤ cs + 1 := by
  intro n
  induction n with
  | zero =>
    intro start acc res hacc h
    exact absurd h (by simp [chunkLoop])
  | succ n ih =>
    intro start acc res hacc h
    unfold chunkLoop at h
    split_ifs at h with hs
    · split at h
      · exact absurd h (by simp)
      · next c start2 hstep =>
        have hcb := chunkStep_chunk_bound cs ov l start c start2 hcs hstep
        have hacc2 : ∀ x ∈ (if c.isEmpty then acc else acc ++ [c]),
            (x.length : Int) ≤ cs + 1 := by
          intro x hx
          split_ifs at hx
          · exact hacc x hx
          · rcases List.mem_append.mp hx with hx | hx
            · exact hacc x hx
            · rw [List.mem_singleton.mp hx]; exact hcb
        by_cases hend : (l.length : Int) ≤ start2
        · rw [if_pos hend] at h
          have hres : (if c.isEmpty then acc else acc ++ [c]) = res := by
            simp only [Option.some.injEq, Except.ok.injEq] at h
            exact h
          rw [← hres]; exact hacc2
        · rw [if_neg hend] at h
          exact ih start2 _ res hacc2 h
    · have : res = acc := by cases h; rfl
      rw [this]; exact hacc

/-- If one loop iteration leaves `start` unchanged (and emits a nonempty
chunk short of the end of the text), the `while` loop of `chunk_document`
never returns, whatever the fuel. -/
theorem chunkLoop_stuck (cs ov : Int) (l : List Char) (start : Int) (c : List Char)
    (hstep : chunkStep cs ov l start = .ok (c, start)) (hlt : start < (l.length : Int)) :
    ∀ (n : Nat) (acc : List (List Char)), chunkLoop cs ov l n start acc = none := by
  intro n
  induction n with
  | zero => intro acc; rfl
  | succ n ih =>
    intro acc
    unfold chunkLoop
    rw [if_pos hlt]
    simp only [hstep]
    rw [if_neg (by omega : ¬ ((l.length : Int) ≤ start))]
    exact ih _

/-- **C1** (counterexample). The claim says calling the chunking operation
with `overlap >= chunk_size` or `chunk_size <= 0` fails with `ConfigError`
before any chunk is produced.  `chunk_document` performs no configuration
validation at all (no `ConfigError` exists anywhere in the sources): with
`chunk_size = -5 <= 0` and `chunk_overlap = -100` on the text `"a"` the
loop runs one iteration and returns normally with an empty chunk list. -/
theorem C1_counterexample : chunk_document (-5) (-100) "a" 1 = some (.ok []) := rfl

/-- **C1** (amended): `chunk_document` performs no configuration validation
and raises no configuration error.  With `chunk_size <= 0` a call can return
normally (`chunk_size = -5`, `overlap = -100` on `"a"` returns no chunks),
and with `overlap >= chunk_size` on nonempty text the loop makes no forward
progress and never terminates (`chunk_size = overlap = 1` on `"ab"`). -/
theorem C1_no_config_validation :
    chunk_document (-5) (-100) "a" 1 = some (.ok []) ∧
    ∀ fuel : Nat, chunk_document 1 1 "ab" fuel = none := by
  refine ⟨rfl, ?_⟩
  intro fuel
  unfold chunk_document
  rw [chunkLoop_stuck 1 1 "ab".data 0 ['a'] (by rfl) (by decide) fuel []]
  rfl

/-- **C2** (code bug, divergence at the failing input).  The claim says the
loop terminates for every `0 <= overlap < chunk_size`.  With the valid
configuration `chunk_size = 3`, `overlap = 2` on `"a.bcde"`, the
sentence-boundary cutback sets `end = 2`, so `start = end - overlap` stays
`0` forever: the loop re-emits the chunk `"a."` and never returns, for any
number of iterations. -/
theorem C2_nontermination : ∀ fuel : Nat, chunk_document 3 2 "a.bcde" fuel = none := by
  intro fuel
  unfold chunk_document
  rw [chunkLoop_stuck 3 2 "a.bcde".data 0 ['a', '.'] (by rfl) (by decide) fuel []]
  rfl

/-- **C3** (counterexample). The claim says every returned chunk has length
`<= chunk_size`.  With the valid configuration `chunk_size = 2`,
`overlap = 0` on `"ab.de"`, the backward scan starts at index
`start + chunk_size` *inclusive*, finds the `'.'` there, and emits the chunk
`"ab."` of length `3 > 2`. -/
theorem C3_counterexample :
    chunk_document 2 0 "ab.de" 10 = some (.ok ["ab.", "de"]) ∧
    (0 : Int) ≤ 0 ∧ (0 : Int) < 2 ∧ ¬ ("ab.".length ≤ 2) :=
  ⟨rfl, by decide, by decide, by decide⟩

/-- **C3** (amended): for every configuration with `0 <= overlap < chunk_size`
and every text, every chunk returned by a terminating run of
`chunk_document` has length `<= chunk_size + 1`: the backward scan starts at
index `start + chunk_size` inclusive, so the cut can land one character past
the tentative end, and never further. -/
theorem C3_chunk_length_bound (cs ov : Int) (text : String) (fuel : Nat)
    (res : List String) (hov : 0 ≤ ov) (hlt : ov < cs)
    (h : chunk_document cs ov text fuel = some (.ok res)) :
    ∀ c ∈ res, (c.length : Int) ≤ cs + 1 := by
  intro c hc
  unfold chunk_document at h
  cases hl : chunkLoop cs ov text.data fuel 0 [] with
  | none => rw [hl] at h; exact absurd h (by simp)
  | some r =>
    rw [hl] at h
    cases r with
    | error u => exact absurd h (by simp [Except.map])
    | ok res2 =>
      have hres : res = res2.map List.asString := by
        simp [Except.map] at h
        exact h.symm
      rw [hres] at hc
      rcases List.mem_map.mp hc with ⟨c2, hc2, hceq⟩
      have hb := chunkLoop_ok_bound cs ov text.data (by omega) fuel 0 [] res2
        (by intro x hx; exact absurd hx (List.not_mem_nil x)) hl c2 hc2
      have : c.length = c2.length := by rw [← hceq]; rfl
      omega

/-- Witness for C3: the amended bound instantiated on the terminating run
`chunk_document 2 0 "ab.de"`, whose chunks are `"ab."` and `"de"`. -/
theorem C3_witness : (("ab.".length : Int) ≤ 2 + 1) ∧ (("de".length : Int) ≤ 2 + 1) :=
  ⟨C3_chunk_length_bound 2 0 "ab.de" 10 ["ab.", "de"] (by decide) (by decide) rfl
      "ab." (by decide),
   C3_chunk_length_bound 2 0 "ab.de" 10 ["ab.", "de"] (by decide) (by decide) rfl
      "de" (by decide)⟩

/-!  ## Enricher: `LegalRAG._classify_legal_content` (rag.py 135-146) and
`LegalRAG._extract_legal_entities` (rag.py 148-164). -/

/-- `LegalRAG._classify_legal_content`: first-match over the ordered rule
list, case-insensitive substring tests on `text.lower()`. -/
def classify_legal_content (text : String) : String :=
  if pyIn "section" (pyLower text) || pyIn "subsection" (pyLower text)
      || pyIn "paragraph" (pyLower text) then "structured_legal_text"
  else if pyIn "budget" (pyLower text) || pyIn "appropriation" (pyLower text)
      || pyIn "funding" (pyLower text) then "budget_document"
  else if pyIn "whereas" (pyLower text) || pyIn "resolved" (pyLower text)
      || pyIn "enacted" (pyLower text) then "legislative_text"
  else "general_legal"

/-- Case-insensitive literal matcher: `pat` is a lowercase pattern; consumes
`pat.length` characters of the input whose lowercasings equal `pat`,
returning the consumed original characters and the rest.  Models the literal
part of `re.IGNORECASE` matching. -/
def matchLowerLit : List Char → List Char → Option (List Char × List Char)
  | [], rest => some ([], rest)
  | _ :: _, [] => none
  | p :: ps, c :: cs2 =>
    if c.toLower = p then (matchLowerLit ps cs2).map fun m => (c :: m.1, m.2)
    else none

/-- One match attempt of the regex `Section \d+` (re.IGNORECASE) at the head
of the input: the literal `"Section "` case-insensitively, then one or more
digits (greedy).  Returns the matched text and the rest. -/
def matchSection (l : List Char) : Option (List Char × List Char) :=
  match matchLowerLit "section ".data l with
  | none => none
  | some (m, rest) =>
    let ds := rest.takeWhile Char.isDigit
    if ds.isEmpty then none else some (m ++ ds, rest.drop ds.length)

/-- One match attempt of the regex `\$[\d,]+(?:\.\d{2})?` at the head of the
input: `'$'`, then a greedy nonempty run of digits and commas, then
optionally a dot followed by exactly two digits. -/
def matchDollar : List Char → Option (List Char × List Char)
  | '$' :: rest =>
    let run := rest.takeWhile fun c => c.isDigit || c = ','
    if run.isEmpty then none
    else
      match rest.drop run.length with
      | '.' :: d1 :: d2 :: rest3 =>
        if d1.isDigit && d2.isDigit then
          some ('$' :: run ++ '.' :: d1 :: d2 :: [], rest3)
        else some ('$' :: run, rest.drop run.length)
      | rest2 => some ('$' :: run, rest2)
  | _ => none

/-- `re.findall` scanning: try a match at each position left to right; after
a match continue at its end (matches are non-overlapping), otherwise advance
one character.  Fuel bounds the number of scan steps; every pattern used
here consumes at least one character, so `l.length + 1` steps suffice. -/
def findAllAux (m : List Char → Option (List Char × List Char)) :
    Nat → List Char → List (List Char)
  | 0, _ => []
  | _ + 1, [] => []
  | n + 1, l@(_ :: rest) =>
    match m l with
    | some (mt, rest2) => mt :: findAllAux m n rest2
    | none => findAllAux m n rest

def findAll (m : List Char → Option (List Char × List Char)) (l : List Char) :
    List (List Char) :=
  findAllAux m (l.length + 1) l

/-- `LegalRAG._extract_legal_entities`: `re.findall(r'Section \d+', text,
re.IGNORECASE)` plus `re.findall(r'\$[\d,]+(?:\.\d{2})?', text)`, then
`list(set(entities))`.  The unordered Python set is modelled by `dedup`
(first occurrences kept); only membership is specified. -/
def extract_legal_entities (text : String) : List String :=
  (((findAll matchSection text.data) ++ (findAll matchDollar text.data)).map
    List.asString).dedup

/-- **C7** (confirmed): classification is first-match in the fixed rule
order: any text whose lowercasing contains `"section"`, `"subsection"` or
`"paragraph"` is classified `structured_legal_text`, never
`budget_document`, regardless of which other rules' keywords occur. -/
theorem C7_first_match (text : String)
    (h : (pyIn "section" (pyLower text) || pyIn "subsection" (pyLower text)
        || pyIn "paragraph" (pyLower text)) = true) :
    classify_legal_content text = "structured_legal_text" ∧
    classify_legal_content text ≠ "budget_document" := by
  unfold classify_legal_content
  rw [if_pos h]
  exact ⟨rfl, by decide⟩

/-- Witness for C7: `"Section 1. Budget appropriation of $500."` satisfies
rule 1's condition and classifies as `structured_legal_text`, not
`budget_document`, although rule 2's keywords also occur. -/
theorem C7_witness :
    (pyIn "budget" (pyLower "Section 1. Budget appropriation of $500.")) = true ∧
    classify_legal_content "Section 1. Budget appropriation of $500." =
      "structured_legal_text" ∧
    classify_legal_content "Section 1. Budget appropriation of $500." ≠
      "budget_document" :=
  ⟨by decide, (C7_first_match _ (by decide)).1, (C7_first_match _ (by decide)).2⟩

/-- **C8** (confirmed): entity extraction on the given input yields, as a
set, exactly `"Section 1"`, `"Section 2"`, `"$1,000,000"` and `"$500.00"`. -/
theorem C8_entities (e : String) :
    e ∈ extract_legal_entities
        "Section 1 provides for $1,000,000 in funding. Section 2 allocates $500.00 more."
      ↔ (e = "Section 1" ∨ e = "Section 2" ∨ e = "$1,000,000" ∨ e = "$500.00") := by
  have h : extract_legal_entities
      "Section 1 provides for $1,000,000 in funding. Section 2 allocates $500.00 more."
      = ["Section 1", "Section 2", "$1,000,000", "$500.00"] := by decide
  rw [h]
  simp only [List.mem_cons, List.not_mem_nil, or_false]

/-!  ## Data model and session: `LegalAI` (core.py) and
`LegalRAG.build_index` / `_enhance_legal_documents` (rag.py).

`Document` objects (llama_index) hold `text` and a mutable `metadata` dict;
the dict is modelled as an insertion-ordered association list with unique
keys, exactly Python dict semantics for `get` and item assignment.  The
external embedding/index and the query engine (llama_index + OpenAI) are
opaque: an index snapshot is modelled by the list of documents it was built
from, and answer generation by a caller-supplied function `gen` from the
question and the snapshot to the answer text. -/

/-- A metadata value as used by the sources: a string (`legal_category`),
a list of strings (`legal_entities`), or an integer (`chunk_id`,
`total_chunks`). -/
inductive MetaVal where
  | str (s : String)
  | strList (l : List String)
  | int (n : Int)
deriving DecidableEq

/-- Python `d[k]` lookup returning `none` when absent (`d.get(k)`). -/
def dictGet : List (String × MetaVal) → String → Option MetaVal
  | [], _ => none
  | p :: rest, k => if p.1 = k then some p.2 else dictGet rest k

/-- Python `d[k] = v`: replace the value at the first occurrence of `k`
in insertion order, or append `(k, v)` if `k` is absent. -/
def dictSet : List (String × MetaVal) → String → MetaVal → List (String × MetaVal)
  | [], k, v => [(k, v)]
  | p :: rest, k, v => if p.1 = k then (k, v) :: rest else p :: dictSet rest k v

/-- A llama_index `Document`: text plus metadata dict. -/
structure Doc where
  text : String
  metadata : List (String × MetaVal)
deriving DecidableEq

/-- Errors raised by the session operations (`ValueError` in the sources,
named here after the stage that raises them). -/
inductive Err where
  | emptyCorpus            -- "No documents loaded. Load documents first."
  | insufficientDocuments  -- "Need at least 2 documents for comparison"
  | indexNotBuilt          -- "No index available. Build index first."
  | fetchFailed            -- a parse/fetch failure propagated by load_document
deriving DecidableEq

/-- The `LegalAI` session state: `self.documents` and `self.index`.  The
index snapshot is represented by the documents it was built over. -/
structure LegalAISt where
  documents : List Doc
  index : Option (List Doc)
deriving DecidableEq

/-- The per-document body of `LegalRAG._enhance_legal_documents`
(rag.py 120-133): `doc.metadata["legal_category"] = ...` then
`doc.metadata["legal_entities"] = ...`, both computed from `doc.text`.
In Python this mutates the document in place; here the mutated value. -/
def enhance_legal_document (d : Doc) : Doc :=
  { text := d.text
    metadata :=
      dictSet (dictSet d.metadata "legal_category"
          (.str (classify_legal_content d.text)))
        "legal_entities" (.strList (extract_legal_entities d.text)) }

namespace LegalAI

/-- `LegalAI.build_index` (core.py 83-90) composed with
`LegalRAG.build_index` (rag.py 113-118): raise if no documents are loaded,
else enhance every document in place and build the vector index over the
enhanced documents.  The corpus holds the same (mutated) document objects;
the snapshot is modelled by the enhanced document list. -/
def build_index (s : LegalAISt) : Except Err LegalAISt :=
  if s.documents.isEmpty then .error .emptyCorpus
  else
    .ok { documents := s.documents.map enhance_legal_document
          index := some (s.documents.map enhance_legal_document) }

/-- `RAGSystem.query` (rag.py 64-78) as invoked by `LegalAI.query` with
`index = self.index`: if an index is passed, query it (the query engine and
LLM are the external `gen`); otherwise raise `ValueError("No index
available. Build index first.")`. -/
def rag_query (gen : String → List Doc → String) (question : String)
    (index : Option (List Doc)) : Except Err String :=
  match index with
  | some idx => .ok (gen question idx)
  | none => .error .indexNotBuilt

/-- `LegalAI.query` (core.py 92-104): if `self.index is None`, first run
`self.build_index()` (implicit lazy build), then delegate to
`self.rag.query(question, self.index)`.  Returns the answer and the
session state after the call. -/
def query (gen : String → List Doc → String) (s : LegalAISt) (question : String) :
    Except Err (String × LegalAISt) :=
  match s.index with
  | some _ =>
    match rag_query gen question s.index with
    | .error e => .error e
    | .ok ans => .ok (ans, s)
  | none =>
    match build_index s with
    | .error e => .error e
    | .ok s2 =>
      match rag_query gen question s2.index with
      | .error e => .error e
      | .ok ans => .ok (ans, s2)

/-- The f-string `comparison_prompt` of `LegalAI.compare_documents`
(core.py 111-115), verbatim. -/
def comparison_prompt (q : String) : String :=
  "\n        Compare the following documents based on this question: " ++ q ++
    "\n        \n        Analyze the similarities, differences, and key insights across the documents.\n        "

/-- `LegalAI.compare_documents` (core.py 106-117): raise if fewer than two
documents are loaded, else delegate to `self.query(comparison_prompt)`. -/
def compare_documents (gen : String → List Doc → String) (s : LegalAISt)
    (q : String) : Except Err (String × LegalAISt) :=
  if s.documents.length < 2 then .error .insufficientDocuments
  else query gen s (comparison_prompt q)

/-- `LegalAI.load_document` (core.py 66-75): parse the URL into chunk
documents (network fetch, HTML parsing and chunking are the external
`parse`); on success extend `self.documents`, on failure re-raise with the
session state untouched.  Returns the outcome together with the session
state after the call. -/
def load_document (parse : String → Except Err (List Doc)) (s : LegalAISt)
    (url : String) : Except Err Unit × LegalAISt :=
  match parse url with
  | .error e => (.error e, s)
  | .ok docs => (.ok (), { s with documents := s.documents ++ docs })

end LegalAI

theorem dictGet_dictSet_self (m : List (String × MetaVal)) (k : String) (v : MetaVal) :
    dictGet (dictSet m k v) k = some v := by
  induction m with
  | nil => simp [dictSet, dictGet]
  | cons p rest ih =>
    unfold dictSet
    by_cases h : p.1 = k
    · rw [if_pos h]; simp [dictGet]
    · rw [if_neg h]; unfold dictGet; rw [if_neg h]; exact ih

theorem dictGet_dictSet_ne (m : List (String × MetaVal)) (k k2 : String)
    (v : MetaVal) (h : k ≠ k2) :
    dictGet (dictSet m k v) k2 = dictGet m k2 := by
  induction m with
  | nil => simp [dictSet, dictGet, h]
  | cons p rest ih =>
    unfold dictSet
    by_cases hp : p.1 = k
    · rw [if_pos hp]
      unfold dictGet
      rw [if_neg h, if_neg (hp ▸ h)]
    · rw [if_neg hp]
      unfold dictGet
      by_cases hpk2 : p.1 = k2
      · rw [if_pos hpk2, if_pos hpk2]
      · rw [if_neg hpk2, if_neg hpk2]; exact ih

theorem dictSet_already (m : List (String × MetaVal)) (k : String) (v : MetaVal)
    (h : dictGet m k = some v) : dictSet m k v = m := by
  induction m with
  | nil => simp [dictGet] at h
  | cons p rest ih =>
    unfold dictGet at h
    unfold dictSet
    by_cases hp : p.1 = k
    · rw [if_pos hp] at h
      rw [if_pos hp]
      have hv : p.2 = v := Option.some.inj h
      obtain ⟨p1, p2⟩ := p
      simp only at hp hv
      rw [hp, hv]
    · rw [if_neg hp] at h
      rw [if_neg hp, ih h]

theorem dictSet_enhance_idem (m : List (String × MetaVal)) (vc ve : MetaVal) :
    dictSet (dictSet (dictSet (dictSet m "legal_category" vc) "legal_entities" ve)
        "legal_category" vc) "legal_entities" ve =
      dictSet (dictSet m "legal_category" vc) "legal_entities" ve := by
  have h1 : dictGet (dictSet (dictSet m "legal_category" vc) "legal_entities" ve)
      "legal_category" = some vc := by
    rw [dictGet_dictSet_ne _ _ _ _ (by decide)]
    exact dictGet_dictSet_self _ _ _
  rw [dictSet_already _ _ _ h1]
  exact dictSet_already _ _ _ (dictGet_dictSet_self _ _ _)

/-- Re-enhancing an already enhanced document is the identity: the inserted
metadata values depend only on the (unchanged) text, and re-assigning an
existing key to the same value leaves a Python dict unchanged. -/
theorem enhance_legal_document_idem (d : Doc) :
    enhance_legal_document (enhance_legal_document d) = enhance_legal_document d :=
  congrArg (Doc.mk d.text) (dictSet_enhance_idem d.metadata _ _)

theorem pyIn_append (q a b : String) : pyIn q (a ++ q ++ b) = true := by
  unfold pyIn
  rw [List.any_eq_true]
  refine ⟨a.data.length, ?_, ?_⟩
  · rw [List.mem_range, String.data_append, String.data_append,
      List.length_append, List.length_append]
    omega
  · rw [String.data_append, String.data_append, List.append_assoc,
      List.drop_left, List.isPrefixOf_iff_prefix]
    exact List.prefix_append _ _

/-- **C4** (confirmed): building an index from a session whose corpus holds
no documents raises (`ValueError("No documents loaded. Load documents
first.")`, modelled as `Err.emptyCorpus`) and produces no snapshot. -/
theorem C4_build_index_empty (s : LegalAISt) (h : s.documents = []) :
    LegalAI.build_index s = .error .emptyCorpus := by
  unfold LegalAI.build_index
  rw [if_pos (by simp [h])]

/-- Witness for C4: the fresh session with an empty corpus. -/
theorem C4_witness : LegalAI.build_index ⟨[], none⟩ = .error .emptyCorpus :=
  C4_build_index_empty ⟨[], none⟩ rfl

/-- **C5** (confirmed): `compare_documents` raises for fewer than two loaded
documents (`ValueError("Need at least 2 documents for comparison")`,
modelled as `Err.insufficientDocuments`) and otherwise delegates, with no
ranking logic of its own, to `query` on the comparison-framed prompt, which
contains the caller's question as a substring. -/
theorem C5_compare_documents (gen : String → List Doc → String) (s : LegalAISt)
    (q : String) :
    (if s.documents.length < 2 then
        LegalAI.compare_documents gen s q = .error .insufficientDocuments
      else
        LegalAI.compare_documents gen s q =
          LegalAI.query gen s (LegalAI.comparison_prompt q)) ∧
    pyIn q (LegalAI.comparison_prompt q) = true := by
  constructor
  · unfold LegalAI.compare_documents
    split_ifs with h
    · rfl
    · rfl
  · exact pyIn_append q
      "\n        Compare the following documents based on this question: "
      "\n        \n        Analyze the similarities, differences, and key insights across the documents.\n        "

/-- **C6** (counterexample).  The claim says `query` never fails when the
snapshot is absent.  On a session with an empty corpus and no index, the
implicit build raises `EmptyCorpusError`, so the query call fails. -/
theorem C6_counterexample :
    LegalAI.query (fun _ _ => "") ⟨[], none⟩ "q" = .error .emptyCorpus := rfl

/-- **C6** (amended): on a session whose snapshot is absent and whose corpus
is nonempty, `query` does not fail with an index-not-built error: it first
performs the implicit build from the current corpus and then answers against
the freshly built snapshot.  (If the corpus is empty, the implicit build
raises `EmptyCorpusError`.) -/
theorem C6_lazy_build (gen : String → List Doc → String) (s : LegalAISt)
    (q : String) (hidx : s.index = none) (hdocs : s.documents ≠ []) :
    LegalAI.query gen s q =
      .ok (gen q (s.documents.map enhance_legal_document),
        { documents := s.documents.map enhance_legal_document
          index := some (s.documents.map enhance_legal_document) }) := by
  obtain ⟨docs, idx⟩ := s
  have h2 : idx = none := hidx
  subst h2
  cases docs with
  | nil => exact absurd rfl hdocs
  | cons d ds => rfl

/-- Witness for C6: a one-document session with no index; the query answers
with the generation function applied to the freshly enhanced snapshot. -/
theorem C6_witness :
    LegalAI.query (fun ques _ => ques) ⟨[⟨"hello world", []⟩], none⟩ "q" =
      .ok ("q",
        { documents := [enhance_legal_document ⟨"hello world", []⟩]
          index := some [enhance_legal_document ⟨"hello world", []⟩] }) :=
  C6_lazy_build (fun ques _ => ques) ⟨[⟨"hello world", []⟩], none⟩ "q" rfl
    (by decide)

/-- **C9** (counterexample).  The claim says no later operation changes a
document's metadata mapping.  A parser-produced document starts without a
`legal_category` key; after building an index over a corpus containing it,
the document held by the corpus has `legal_category` (and `legal_entities`)
set: `_enhance_legal_documents` mutated its metadata dict in place. -/
theorem C9_counterexample :
    dictGet (Doc.metadata ⟨"hello world", []⟩) "legal_category" = none ∧
    LegalAI.build_index ⟨[⟨"hello world", []⟩], none⟩ =
      .ok ⟨[⟨"hello world",
              [("legal_category", MetaVal.str "general_legal"),
               ("legal_entities", MetaVal.strList [])]⟩],
           some [⟨"hello world",
              [("legal_category", MetaVal.str "general_legal"),
               ("legal_entities", MetaVal.strList [])]⟩]⟩ :=
  ⟨rfl, rfl⟩

/-- **C9** (amended): building an index never changes a document's text, but
it mutates every corpus document's metadata in place, setting
`legal_category` and `legal_entities` to values computed purely from the
text; consequently re-enhancing an already enhanced document changes
nothing (the mutation is idempotent). -/
theorem C9_enhance_behavior (s s2 : LegalAISt)
    (h : LegalAI.build_index s = .ok s2) :
    s2.documents.map Doc.text = s.documents.map Doc.text ∧
    s2.documents = s.documents.map enhance_legal_document ∧
    ∀ d : Doc, enhance_legal_document (enhance_legal_document d) =
      enhance_legal_document d := by
  unfold LegalAI.build_index at h
  by_cases he : s.documents.isEmpty
  · rw [if_pos he] at h
    exact absurd h (by simp)
  · rw [if_neg he] at h
    have h2 : s2 = ⟨s.documents.map enhance_legal_document,
        some (s.documents.map enhance_legal_document)⟩ := (Except.ok.inj h).symm
    subst h2
    refine ⟨?_, rfl, fun d => enhance_legal_document_idem d⟩
    simp only [List.map_map]
    exact List.map_congr_left fun d _ => rfl

/-- Witness for C9: the amended statement instantiated on a one-document
session. -/
theorem C9_witness :
    [(⟨"hello world",
        [("legal_category", MetaVal.str "general_legal"),
         ("legal_entities", MetaVal.strList [])]⟩ : Doc)].map Doc.text =
      [(⟨"hello world", []⟩ : Doc)].map Doc.text ∧
    [(⟨"hello world",
        [("legal_category", MetaVal.str "general_legal"),
         ("legal_entities", MetaVal.strList [])]⟩ : Doc)] =
      [(⟨"hello world", []⟩ : Doc)].map enhance_legal_document ∧
    ∀ d : Doc, enhance_legal_document (enhance_legal_document d) =
      enhance_legal_document d :=
  C9_enhance_behavior ⟨[⟨"hello world", []⟩], none⟩
    ⟨[⟨"hello world",
        [("legal_category", MetaVal.str "general_legal"),
         ("legal_entities", MetaVal.strList [])]⟩],
     some [⟨"hello world",
        [("legal_category", MetaVal.str "general_legal"),
         ("legal_entities", MetaVal.strList [])]⟩]⟩ rfl

/-- **C10** (confirmed): ingestion is atomic.  `load_document` first runs
the whole parse; if the parse raises, the error propagates and the session's
corpus (and index) are exactly as before; if it succeeds, the corpus
afterwards is the old corpus followed by the newly parsed chunks in order,
with everything previously held unchanged. -/
theorem C10_load_document_atomic (parse : String → Except Err (List Doc))
    (s : LegalAISt) (url : String) :
    (∀ e, parse url = .error e →
      LegalAI.load_document parse s url = (.error e, s)) ∧
    (∀ docs, parse url = .ok docs →
      LegalAI.load_document parse s url =
        (.ok (), ⟨s.documents ++ docs, s.index⟩)) := by
  constructor
  · intro e he
    unfold LegalAI.load_document
    rw [he]
  · intro docs hd
    unfold LegalAI.load_document
    rw [hd]

/-- Witness for C10: a succeeding parse appends its chunks; a failing parse
leaves the corpus untouched and propagates the error. -/
theorem C10_witness :
    LegalAI.load_document (fun _ => .ok [⟨"t", []⟩]) ⟨[⟨"s", []⟩], none⟩ "u" =
      (.ok (), ⟨[⟨"s", []⟩, ⟨"t", []⟩], none⟩) ∧
    LegalAI.load_document (fun _ => .error .fetchFailed) ⟨[⟨"s", []⟩], none⟩ "u" =
      (.error .fetchFailed, ⟨[⟨"s", []⟩], none⟩) :=
  ⟨(C10_load_document_atomic (fun _ => .ok [⟨"t", []⟩]) ⟨[⟨"s", []⟩], none⟩ "u").2
      [⟨"t", []⟩] rfl,
   (C10_load_document_atomic (fun _ => .error .fetchFailed) ⟨[⟨"s", []⟩], none⟩ "u").1
      .fetchFailed rfl⟩
